import Mathlib

/-!
Verification of the Light-API-Explorer faux SDK core:
cursor-based pagination (`packages/sdk/src/pagination.ts`),
filter parsing and evaluation (`src/filters.ts`),
and the two invoice-payables workflow modules
(`packages/sdk/src/modules/invoicePayables.ts`, 5-state, and the
6-state variant).  Every definition is a shallow embedding of the
corresponding TypeScript function.
-/

namespace LightSDK

/-- A JavaScript `Error` as used throughout the SDK: a message plus an
optional `status` field bolted on by the error helper functions
(`createValidationError`, `createWorkflowError`, `createNotFoundError`).
Plain `new Error(msg)` (as thrown by `decodeCursor`) has no status. -/
structure JsError where
  message : String
  status : Option Nat
deriving DecidableEq, Repr

instance {ε α : Type} [DecidableEq ε] [DecidableEq α] : DecidableEq (Except ε α)
  | .ok a, .ok b =>
    if h : a = b then .isTrue (by rw [h]) else .isFalse (by simp [h])
  | .ok _, .error _ => .isFalse (by simp)
  | .error _, .ok _ => .isFalse (by simp)
  | .error e, .error f =>
    if h : e = f then .isTrue (by rw [h]) else .isFalse (by simp [h])

/-! ### Base64 (Node `Buffer.from(.., 'base64')` / `.toString('base64')`)

Standard base64 with `=` padding.  Node's base64 decoder is lenient:
characters outside the alphabet (including `=`) are skipped, remaining
sextets are packed into bytes, and a trailing lone sextet is dropped. -/

def base64Alphabet : List Char :=
  "ABCDEFGHIJKLMNOPQRSTUVWXYZabcdefghijklmnopqrstuvwxyz0123456789+/".data

def base64Char (n : Nat) : Char := base64Alphabet.getD n 'A'

def sextetOfChar (c : Char) : Option Nat :=
  base64Alphabet.findIdx? (fun a => a = c)

/-- Encode a byte sequence to base64 characters (with padding). -/
def base64Encode : List Nat → List Char
  | [] => []
  | [b0] => [base64Char (b0 / 4), base64Char (b0 % 4 * 16), '=', '=']
  | [b0, b1] => [base64Char (b0 / 4), base64Char (b0 % 4 * 16 + b1 / 16),
      base64Char (b1 % 16 * 4), '=']
  | b0 :: b1 :: b2 :: rest =>
      base64Char (b0 / 4) :: base64Char (b0 % 4 * 16 + b1 / 16) ::
      base64Char (b1 % 16 * 4 + b2 / 64) :: base64Char (b2 % 64) ::
      base64Encode rest

/-- Pack a sequence of sextets into bytes (groups of four sextets give
three bytes; a trailing group of three gives two bytes, of two gives one,
and a lone trailing sextet is dropped, as Node does). -/
def sextetsToBytes : List Nat → List Nat
  | s0 :: s1 :: s2 :: s3 :: rest =>
      (s0 * 4 + s1 / 16) :: (s1 % 16 * 16 + s2 / 4) :: (s2 % 4 * 64 + s3) ::
      sextetsToBytes rest
  | [s0, s1, s2] => [s0 * 4 + s1 / 16, s1 % 16 * 16 + s2 / 4]
  | [s0, s1] => [s0 * 4 + s1 / 16]
  | _ => []

/-- Lenient base64 decode: skip any character outside the alphabet
(including padding), then pack the sextets. -/
def base64Decode (cs : List Char) : List Nat :=
  sextetsToBytes (cs.filterMap sextetOfChar)

theorem sextetOfChar_base64Char : ∀ n : Fin 64,
    sextetOfChar (base64Char n.val) = some n.val := by decide

theorem sextetOfChar_pad : sextetOfChar '=' = none := by decide

theorem base64_roundtrip_aux : ∀ (fuel : Nat) (bs : List Nat),
    bs.length ≤ fuel → (∀ b ∈ bs, b < 256) →
    base64Decode (base64Encode bs) = bs := by
  intro fuel
  induction fuel with
  | zero =>
    intro bs hlen _
    have : bs = [] := List.eq_nil_of_length_eq_zero (Nat.le_zero.mp hlen)
    subst this
    rfl
  | succ n ih =>
    intro bs hlen hb
    match bs with
    | [] => rfl
    | [b0] =>
      have h0 : b0 < 256 := hb b0 (by simp)
      have v0 : b0 / 4 < 64 := by omega
      have v1 : b0 % 4 * 16 < 64 := by omega
      have e0 := sextetOfChar_base64Char ⟨b0 / 4, v0⟩
      have e1 := sextetOfChar_base64Char ⟨b0 % 4 * 16, v1⟩
      simp only [base64Encode, base64Decode, List.filterMap] at *
      rw [e0, e1, sextetOfChar_pad]
      simp only [sextetsToBytes, List.cons.injEq, and_true]
      omega
    | [b0, b1] =>
      have h0 : b0 < 256 := hb b0 (by simp)
      have h1 : b1 < 256 := hb b1 (by simp)
      have v0 : b0 / 4 < 64 := by omega
      have v1 : b0 % 4 * 16 + b1 / 16 < 64 := by omega
      have v2 : b1 % 16 * 4 < 64 := by omega
      have e0 := sextetOfChar_base64Char ⟨b0 / 4, v0⟩
      have e1 := sextetOfChar_base64Char ⟨b0 % 4 * 16 + b1 / 16, v1⟩
      have e2 := sextetOfChar_base64Char ⟨b1 % 16 * 4, v2⟩
      simp only [base64Encode, base64Decode, List.filterMap] at *
      rw [e0, e1, e2, sextetOfChar_pad]
      simp only [sextetsToBytes, List.cons.injEq, and_true]
      exact ⟨by omega, by omega⟩
    | b0 :: b1 :: b2 :: rest =>
      have h0 : b0 < 256 := hb b0 (by simp)
      have h1 : b1 < 256 := hb b1 (by simp)
      have h2 : b2 < 256 := hb b2 (by simp)
      have v0 : b0 / 4 < 64 := by omega
      have v1 : b0 % 4 * 16 + b1 / 16 < 64 := by omega
      have v2 : b1 % 16 * 4 + b2 / 64 < 64 := by omega
      have v3 : b2 % 64 < 64 := by omega
      have e0 := sextetOfChar_base64Char ⟨b0 / 4, v0⟩
      have e1 := sextetOfChar_base64Char ⟨b0 % 4 * 16 + b1 / 16, v1⟩
      have e2 := sextetOfChar_base64Char ⟨b1 % 16 * 4 + b2 / 64, v2⟩
      have e3 := sextetOfChar_base64Char ⟨b2 % 64, v3⟩
      have hrest : base64Decode (base64Encode rest) = rest := by
        apply ih rest
        · simp only [List.length_cons] at hlen; omega
        · intro b hbmem
          exact hb b (by simp [hbmem])
      simp only [base64Encode, base64Decode, List.filterMap] at *
      rw [e0, e1, e2, e3]
      simp only [sextetsToBytes, List.cons.injEq]
      exact ⟨by omega, by omega, by omega, hrest⟩

theorem base64_roundtrip (bs : List Nat) (hb : ∀ b ∈ bs, b < 256) :
    base64Decode (base64Encode bs) = bs :=
  base64_roundtrip_aux bs.length bs le_rfl hb

theorem base64Encode_ne_nil : ∀ {bs : List Nat}, bs ≠ [] →
    base64Encode bs ≠ [] := by
  intro bs h
  match bs with
  | [] => exact absurd rfl h
  | [b0] => simp [base64Encode]
  | [b0, b1] => simp [base64Encode]
  | b0 :: b1 :: b2 :: rest => simp [base64Encode]

/-! ### Decimal representation and JS `parseInt(s, 10)` -/

/-- Little-endian decimal digits of `n`, fuel-driven so it evaluates by
kernel reduction.  Equals `Nat.digits 10 n` whenever `n ≤ fuel`. -/
def decimalDigitsAux : Nat → Nat → List Nat
  | 0, _ => []
  | _ + 1, 0 => []
  | fuel + 1, n => n % 10 :: decimalDigitsAux fuel (n / 10)

/-- ASCII bytes of JS `String(i)` for a non-negative integer `i`. -/
def decimalBytes (i : Nat) : List Nat :=
  if i = 0 then [48]
  else ((decimalDigitsAux i i).map (fun d => 48 + d)).reverse

theorem decimalDigitsAux_eq_digits : ∀ (fuel n : Nat), n ≤ fuel →
    decimalDigitsAux fuel n = Nat.digits 10 n := by
  intro fuel
  induction fuel with
  | zero =>
    intro n hn
    have : n = 0 := Nat.le_zero.mp hn
    subst this
    simp [decimalDigitsAux]
  | succ f ih =>
    intro n hn
    match n with
    | 0 => simp [decimalDigitsAux]
    | m + 1 =>
      rw [show decimalDigitsAux (f + 1) (m + 1)
            = (m + 1) % 10 :: decimalDigitsAux f ((m + 1) / 10) from rfl,
        ih ((m + 1) / 10) (by omega),
        Nat.digits_def' (b := 10) (by norm_num) (Nat.succ_pos m)]

/-- JS character-is-decimal-digit test with its value. -/
def digitVal (c : Char) : Option Nat :=
  if 48 ≤ c.toNat ∧ c.toNat ≤ 57 then some (c.toNat - 48) else none

def jsWhitespace (c : Char) : Bool :=
  c = ' ' || c = '\t' || c = '\n' || c = '\r'

/-- The longest decimal-digit run at the head of `cs`, as a number;
`none` when there is no leading digit (parseInt yields `NaN`). -/
def parseNatDigits (cs : List Char) : Option Nat :=
  let ds := cs.takeWhile (fun c => (digitVal c).isSome)
  if ds = [] then none
  else some (ds.foldl (fun acc c => acc * 10 + (c.toNat - 48)) 0)

/-- JS `parseInt(s, 10)`: skip leading whitespace, optional sign, then
the longest digit run; `none` models `NaN`. -/
def parseIntDec (cs : List Char) : Option Int :=
  match cs.dropWhile jsWhitespace with
  | [] => none
  | c :: rest =>
    if c = '-' then (parseNatDigits rest).map (fun n => -(n : Int))
    else if c = '+' then (parseNatDigits rest).map (fun n => (n : Int))
    else (parseNatDigits (c :: rest)).map (fun n => (n : Int))

theorem digitCharFacts : ∀ d : Fin 10,
    (Char.ofNat (48 + d.val)).toNat = 48 + d.val ∧
    (digitVal (Char.ofNat (48 + d.val))).isSome = true ∧
    jsWhitespace (Char.ofNat (48 + d.val)) = false ∧
    Char.ofNat (48 + d.val) ≠ '-' ∧ Char.ofNat (48 + d.val) ≠ '+' := by
  decide

theorem takeWhile_all {p : α → Bool} : ∀ (l : List α), (∀ a ∈ l, p a = true) →
    l.takeWhile p = l := by
  intro l h
  induction l with
  | nil => rfl
  | cons a t ih =>
    rw [List.takeWhile_cons, h a (by simp)]
    simp [ih (fun a ha => h a (by simp [ha]))]

theorem foldl_reverse_digits : ∀ (l : List Nat) (acc : Nat), (∀ d ∈ l, d < 10) →
    ((l.map fun d => Char.ofNat (48 + d)).reverse).foldl
      (fun a c => a * 10 + (c.toNat - 48)) acc
      = acc * 10 ^ l.length + Nat.ofDigits 10 l := by
  intro l
  induction l with
  | nil => intro acc _; simp
  | cons d t ih =>
    intro acc h
    have hd : d < 10 := h d (by simp)
    have htoNat : (Char.ofNat (48 + d)).toNat = 48 + d :=
      (digitCharFacts ⟨d, hd⟩).1
    rw [List.map_cons, List.reverse_cons, List.foldl_append,
      ih acc (fun x hx => h x (by simp [hx]))]
    simp only [List.foldl_cons, List.foldl_nil, htoNat, Nat.ofDigits_cons,
      List.length_cons]
    ring_nf
    omega

/-- The decoded characters of `decimalBytes i`, i.e. JS `String(i)`
viewed as a character list. -/
def decimalChars (i : Nat) : List Char :=
  (decimalBytes i).map Char.ofNat

theorem decimalChars_digits : ∀ i : Nat, ∀ c ∈ decimalChars i,
    (digitVal c).isSome = true ∧ jsWhitespace c = false ∧
    c ≠ '-' ∧ c ≠ '+' ∧ c.toNat ≥ 48 := by
  intro i c hc
  simp only [decimalChars, decimalBytes] at hc
  by_cases h0 : i = 0
  · simp [h0] at hc
    subst hc
    exact ⟨by decide, by decide, by decide, by decide, by decide⟩
  · simp only [h0, if_false, List.map_reverse, List.mem_reverse,
      List.map_map, List.mem_map] at hc
    obtain ⟨d, hd, rfl⟩ := hc
    rw [decimalDigitsAux_eq_digits i i le_rfl] at hd
    have hd10 : d < 10 := Nat.digits_lt_base (by norm_num) hd
    have := digitCharFacts ⟨d, hd10⟩
    exact ⟨this.2.1, this.2.2.1, this.2.2.2.1, this.2.2.2.2,
      by rw [Function.comp_apply, this.1]; omega⟩

theorem parseIntDec_decimalChars (i : Nat) :
    parseIntDec (decimalChars i) = some (i : Int) := by
  have hne : decimalChars i ≠ [] := by
    simp only [decimalChars, decimalBytes]
    by_cases h0 : i = 0
    · simp [h0]
    · simp only [h0, if_false]
      have : Nat.digits 10 i ≠ [] := Nat.digits_ne_nil_iff_ne_zero.mpr h0
      rw [← decimalDigitsAux_eq_digits i i le_rfl] at this
      simp [this]
  obtain ⟨c, rest, hcons⟩ := List.exists_cons_of_ne_nil hne
  have hfacts := fun x hx => decimalChars_digits i x hx
  have hdrop : (decimalChars i).dropWhile jsWhitespace = decimalChars i := by
    rw [hcons, List.dropWhile_cons_of_neg]
    simp [(hfacts c (by rw [hcons]; simp)).2.1]
  have hparse : parseNatDigits (decimalChars i) = some i := by
    unfold parseNatDigits
    rw [takeWhile_all _ (fun x hx => (hfacts x hx).1)]
    simp only [hne, if_false]
    by_cases h0 : i = 0
    · subst h0
      decide
    · have : decimalChars i
          = ((Nat.digits 10 i).map fun d => Char.ofNat (48 + d)).reverse := by
        simp only [decimalChars, decimalBytes, h0, if_false,
          decimalDigitsAux_eq_digits i i le_rfl, List.map_reverse,
          List.map_map, Function.comp_def]
      rw [this, foldl_reverse_digits _ 0
        (fun d hd => Nat.digits_lt_base (by norm_num) hd)]
      simp [Nat.ofDigits_digits]
  unfold parseIntDec
  rw [hdrop, hcons]
  have hcm : c ≠ '-' := (hfacts c (by rw [hcons]; simp)).2.2.1
  have hcp : c ≠ '+' := (hfacts c (by rw [hcons]; simp)).2.2.2.1
  dsimp only
  rw [if_neg hcm, if_neg hcp, ← hcons, hparse]
  rfl

/-! ### Cursor encoding (`packages/sdk/src/pagination.ts`) -/

/-- `encodeCursor(index)`: base64 of `String(index)`
(`Buffer.from(String(index)).toString('base64')`). -/
def encodeCursor (index : Nat) : String :=
  ⟨base64Encode (decimalBytes index)⟩

/-- The body of the `try` block of `decodeCursor`:
decode base64 to a UTF-8 string, `parseInt` it, and reject `NaN` and
negative values with `Error('Invalid cursor value')`.  Bytes are turned
into characters positionally; every byte arising from a digit string is
ASCII, where this agrees with UTF-8. -/
def decodeCursorInner (cursor : String) : Except JsError Int :=
  let decoded := (base64Decode cursor.data).map Char.ofNat
  match parseIntDec decoded with
  | none => .error ⟨"Invalid cursor value", none⟩
  | some index =>
    if index < 0 then .error ⟨"Invalid cursor value", none⟩
    else .ok index

/-- `decodeCursor(cursor)`: the whole body runs inside `try { .. } catch`,
and the `catch` replaces ANY thrown error — including the inner
`Invalid cursor value` — with `Error('Invalid cursor format')`. -/
def decodeCursor (cursor : String) : Except JsError Int :=
  match decodeCursorInner cursor with
  | .ok index => .ok index
  | .error _ => .error ⟨"Invalid cursor format", none⟩

theorem decimalBytes_lt_256 (i : Nat) : ∀ b ∈ decimalBytes i, b < 256 := by
  intro b hb
  simp only [decimalBytes] at hb
  by_cases h0 : i = 0
  · simp [h0] at hb
    omega
  · simp only [h0, if_false, List.mem_reverse, List.mem_map] at hb
    obtain ⟨d, hd, rfl⟩ := hb
    rw [decimalDigitsAux_eq_digits i i le_rfl] at hd
    have := Nat.digits_lt_base (by norm_num) hd
    omega

theorem decodeCursor_encodeCursor (i : Nat) :
    decodeCursor (encodeCursor i) = .ok (i : Int) := by
  have hbytes : base64Decode (base64Encode (decimalBytes i)) = decimalBytes i :=
    base64_roundtrip _ (decimalBytes_lt_256 i)
  unfold decodeCursor decodeCursorInner encodeCursor
  simp only [hbytes]
  rw [show (decimalBytes i).map Char.ofNat = decimalChars i from rfl,
    parseIntDec_decimalChars]
  dsimp only
  rw [if_neg (Int.not_lt.mpr (Int.natCast_nonneg i))]

theorem encodeCursor_ne_empty (i : Nat) : encodeCursor i ≠ "" := by
  unfold encodeCursor
  intro h
  have hdata : base64Encode (decimalBytes i) = [] := by
    have := congrArg String.data h
    simpa using this
  have hne : decimalBytes i ≠ [] := by
    simp only [decimalBytes]
    by_cases h0 : i = 0
    · simp [h0]
    · simp only [h0, if_false]
      have : Nat.digits 10 i ≠ [] := Nat.digits_ne_nil_iff_ne_zero.mpr h0
      rw [← decimalDigitsAux_eq_digits i i le_rfl] at this
      simp [this]
  exact base64Encode_ne_nil hne hdata

/-! ### `cursorPaginate` (`packages/sdk/src/pagination.ts`) -/

/-- The response shape of `cursorPaginate`. -/
structure PageResp (α : Type) where
  data : List α
  prevCursor : Option String
  nextCursor : Option String
  hasMore : Bool
deriving DecidableEq, Repr

/-- The successful body of `cursorPaginate` once the start index is known:
`slice(startIndex, startIndex + limit)`, `hasMore = endIndex < length`,
`nextCursor = hasMore ? encodeCursor(endIndex) : null`,
`prevCursor = startIndex > 0 ? encodeCursor(max(0, startIndex - limit)) : null`. -/
def pageAt (items : List α) (limit startIndex : Nat) : PageResp α :=
  { data := (items.drop startIndex).take limit
    prevCursor := if 0 < startIndex
      then some (encodeCursor (startIndex - limit)) else none
    nextCursor := if startIndex + limit < items.length
      then some (encodeCursor (startIndex + limit)) else none
    hasMore := decide (startIndex + limit < items.length) }

/-- `cursorPaginate(items, limit, cursor?)`.  `startIndex` is
`cursor ? decodeCursor(cursor) : 0` — an absent OR empty (falsy) cursor
means start at 0; a decode failure propagates as a thrown error. -/
def cursorPaginate (items : List α) (limit : Nat) (cursor : Option String) :
    Except JsError (PageResp α) :=
  match (match cursor with
         | some c => if c = "" then Except.ok 0 else decodeCursor c
         | none => Except.ok (0 : Int)) with
  | .error e => .error e
  | .ok startIndex => .ok (pageAt items limit startIndex.toNat)

theorem cursorPaginate_encodeCursor (items : List α) (limit s : Nat) :
    cursorPaginate items limit (some (encodeCursor s)) = .ok (pageAt items limit s) := by
  unfold cursorPaginate
  dsimp only
  rw [if_neg (encodeCursor_ne_empty s), decodeCursor_encodeCursor]
  simp

/-- Walking the paginator the way a client does: issue a request, and as
long as the response carries a `nextCursor`, feed exactly that cursor
string into the next request, concatenating the `data` pages. -/
def walkPages (α : Type) : Nat → List α → Nat → Option String → Except JsError (List α)
  | 0, _, _, _ => .ok []
  | fuel + 1, items, limit, cursor =>
    match cursorPaginate items limit cursor with
    | .error e => .error e
    | .ok p =>
      match p.nextCursor with
      | none => .ok p.data
      | some c => (walkPages α fuel items limit (some c)).map (fun rest => p.data ++ rest)

theorem take_drop_glue (items : List α) (L s : Nat) :
    (items.drop s).take L ++ items.drop (s + L) = items.drop s := by
  have : items.drop (s + L) = (items.drop s).drop L := by
    rw [List.drop_drop, Nat.add_comm]
  rw [this, List.take_append_drop]

theorem take_all_of_short (items : List α) (L s : Nat)
    (h : ¬ s + L < items.length) : (items.drop s).take L = items.drop s := by
  apply List.take_of_length_le
  rw [List.length_drop]
  omega

theorem walkPages_from (items : List α) (L : Nat) :
    ∀ (fuel s : Nat), items.length ≤ s + fuel * L →
    walkPages α fuel items L (some (encodeCursor s)) = .ok (items.drop s) := by
  intro fuel
  induction fuel with
  | zero =>
    intro s hs
    simp only [Nat.zero_mul, Nat.add_zero] at hs
    rw [show walkPages α 0 items L (some (encodeCursor s)) = .ok [] from rfl,
      List.drop_eq_nil_of_le hs]
  | succ f ih =>
    intro s hs
    rw [show walkPages α (f + 1) items L (some (encodeCursor s))
        = (match cursorPaginate items L (some (encodeCursor s)) with
           | .error e => .error e
           | .ok p =>
             match p.nextCursor with
             | none => .ok p.data
             | some c => (walkPages α f items L (some c)).map
                 (fun rest => p.data ++ rest)) from rfl,
      cursorPaginate_encodeCursor]
    by_cases hmore : s + L < items.length
    · simp only [pageAt, if_pos hmore]
      rw [ih (s + L) (by rw [Nat.succ_mul] at hs; omega)]
      simp only [Except.map]
      rw [take_drop_glue items L s]
    · simp only [pageAt, if_neg hmore]
      rw [take_all_of_short items L s hmore]

/-- Claim C1: for every list of items and every limit L with 1 ≤ L ≤ 100,
repeatedly calling `cursorPaginate` starting with no cursor and feeding each
response's `nextCursor` back in until `hasMore` is false concatenates to
exactly the original list, in order; and in every response `nextCursor` is
non-null iff `start + limit < length items`, in which case it encodes
`start + limit`. -/
theorem c1_pagination_coverage (items : List α) (L : Nat)
    (hL1 : 1 ≤ L) (hL2 : L ≤ 100) :
    walkPages α (items.length + 1) items L none = .ok items
    ∧ cursorPaginate items L none = .ok (pageAt items L 0)
    ∧ ∀ s : Nat,
        cursorPaginate items L (some (encodeCursor s)) = .ok (pageAt items L s)
        ∧ ((pageAt items L s).nextCursor ≠ none ↔ s + L < items.length)
        ∧ (s + L < items.length →
            (pageAt items L s).nextCursor = some (encodeCursor (s + L))) := by
  refine ⟨?_, rfl, ?_⟩
  · rw [show walkPages α (items.length + 1) items L none
        = (match cursorPaginate items L none with
           | .error e => .error e
           | .ok p =>
             match p.nextCursor with
             | none => .ok p.data
             | some c => (walkPages α items.length items L (some c)).map
                 (fun rest => p.data ++ rest)) from rfl,
      show cursorPaginate items L none = .ok (pageAt items L 0) from rfl]
    by_cases hmore : 0 + L < items.length
    · simp only [pageAt, if_pos hmore]
      rw [walkPages_from items L items.length (0 + L)
        (by
          have : items.length ≤ items.length * L :=
            Nat.le_mul_of_pos_right items.length (by omega)
          omega)]
      simp only [Except.map]
      rw [take_drop_glue items L 0]
      simp
    · simp only [pageAt, if_neg hmore]
      rw [take_all_of_short items L 0 hmore]
      simp
  · intro s
    refine ⟨cursorPaginate_encodeCursor items L s, ?_, ?_⟩
    · by_cases h : s + L < items.length
      · simp [pageAt, h]
      · simp [pageAt, h]
    · intro h
      simp [pageAt, h]

/-- Claim C1 witness: a concrete three-element list walked with limit 2. -/
theorem c1_pagination_coverage_witness :
    (1 ≤ 2 ∧ 2 ≤ 100)
    ∧ walkPages Nat 4 [10, 20, 30] 2 none = .ok [10, 20, 30] :=
  ⟨⟨by decide, by decide⟩,
    (c1_pagination_coverage [10, 20, 30] 2 (by decide) (by decide)).1⟩

/-- Claim C2: for every non-negative integer i,
`decodeCursor (encodeCursor i) = i`, and the concrete literal identity
`encodeCursor 0 = "MA=="` holds. -/
theorem c2_cursor_roundtrip :
    (∀ i : Nat, decodeCursor (encodeCursor i) = .ok (i : Int))
    ∧ encodeCursor 0 = "MA==" :=
  ⟨decodeCursor_encodeCursor, by decide⟩

/-- Claim C9: the cursor `"LTU="` is the base64 encoding of the string
`"-5"`, which decodes to a negative integer — yet `decodeCursor` reports
`Invalid cursor format`, not `Invalid cursor value`, because the `catch`
block swallows the inner throw and re-throws with the format message.
Indeed NO cursor can ever surface the `Invalid cursor value` message. -/
theorem c9_negative_cursor_message :
    decodeCursor "LTU=" = .error ⟨"Invalid cursor format", none⟩
    ∧ ∀ c : String, decodeCursor c ≠ .error ⟨"Invalid cursor value", none⟩ := by
  refine ⟨by decide, ?_⟩
  intro c h
  unfold decodeCursor at h
  cases hi : decodeCursorInner c with
  | ok v => rw [hi] at h; exact absurd h (by simp)
  | error e => rw [hi] at h; simp at h

/-- Claim C10: for every list of items, limit L ≥ 1, and valid cursor whose
decoded start offset is at least `length items`, `cursorPaginate` raises no
error and returns an empty page with `hasMore = false` and a null
`nextCursor`. -/
theorem c10_out_of_range_cursor (items : List α) (L s : Nat)
    (hL : 1 ≤ L) (hs : items.length ≤ s) :
    cursorPaginate items L (some (encodeCursor s))
      = .ok { data := []
              prevCursor := if 0 < s then some (encodeCursor (s - L)) else none
              nextCursor := none
              hasMore := false } := by
  rw [cursorPaginate_encodeCursor]
  have hno : ¬ (s + L < items.length) := by omega
  simp [pageAt, List.drop_eq_nil_of_le hs, hno]

/-- Claim C10 witness: cursor encoding offset 5 against a 3-element list. -/
theorem c10_out_of_range_cursor_witness :
    (1 ≤ 1 ∧ ([1, 2, 3] : List Nat).length ≤ 5)
    ∧ cursorPaginate [1, 2, 3] 1 (some (encodeCursor 5))
      = .ok { data := ([] : List Nat)
              prevCursor := if 0 < 5 then some (encodeCursor (5 - 1)) else none
              nextCursor := none
              hasMore := false } :=
  ⟨⟨by decide, by decide⟩,
    c10_out_of_range_cursor [1, 2, 3] 1 5 (by decide) (by decide)⟩

/-! ### Shared document pieces (`types.ts`) -/

/-- `Money`: amount plus ISO currency code.  Every amount produced by the
system is an integer (the generator multiplies integer quantities by
integer unit prices), so amounts are modelled as integers. -/
structure Money where
  amountInMajors : Int
  currency : String
deriving DecidableEq, Repr

/-- `LineItem` within a document. -/
structure LineItem where
  id : String
  description : String
  quantity : Int
  unitPrice : Money
  totalAmount : Money
  accountCode : String
deriving DecidableEq, Repr

/-! ### Workflow variant A: the 5-state module
(`packages/sdk/src/modules/invoicePayables.ts`).  Its `DocumentStatus`
type has exactly the five values below; documents carry no version
counter. -/

inductive StatusA
  | DRAFT | SUBMITTED | APPROVED | POSTED | PAID
deriving DecidableEq, Repr

def statusAName : StatusA → String
  | .DRAFT => "DRAFT"
  | .SUBMITTED => "SUBMITTED"
  | .APPROVED => "APPROVED"
  | .POSTED => "POSTED"
  | .PAID => "PAID"

/-- `STATUS_ORDER`: valid status transitions (forward only). -/
def STATUS_ORDER : List StatusA :=
  [.DRAFT, .SUBMITTED, .APPROVED, .POSTED, .PAID]

/-- `VALID_TRANSITIONS`: valid transitions map for strict validation
(with the rejection back-edges of the source). -/
def VALID_TRANSITIONS : StatusA → List StatusA
  | .DRAFT => [.SUBMITTED]
  | .SUBMITTED => [.APPROVED, .DRAFT]
  | .APPROVED => [.POSTED, .SUBMITTED]
  | .POSTED => [.PAID]
  | .PAID => []

/-- `AccountingDocument` as stored by the 5-state module: note the field
list — there is no version counter. -/
structure DocA where
  id : String
  documentType : String
  status : StatusA
  documentNumber : String
  documentDate : String
  createdAt : String
  updatedAt : String
  businessPartnerId : String
  businessPartnerName : String
  description : String
  totalTransactionAmount : Money
  lineItems : List LineItem
deriving DecidableEq, Repr

/-- The module's in-memory `Map<string, AccountingDocument>`. -/
abbrev StoreA : Type := List (String × DocA)

def createNotFoundErrorA (id : String) : JsError :=
  ⟨"Document not found: " ++ id, some 404⟩

def createWorkflowErrorA (message : String) : JsError :=
  ⟨message, some 400⟩

/-- Replace the document stored under `id` (the JS code mutates the object
held in the map in place). -/
def storeSetA (store : StoreA) (id : String) (d : DocA) : StoreA :=
  store.map (fun kv => if kv.1 = id then (kv.1, d) else kv)

/-- `advance(id)` of the 5-state module, with the operation time `tNow`
passed in for `now()`.  Returns the result of the call together with the
store after the call. -/
def advanceA (tNow : String) (id : String) (store : StoreA) :
    Except JsError DocA × StoreA :=
  match List.lookup id store with
  | none => (.error (createNotFoundErrorA id), store)
  | some doc =>
    match STATUS_ORDER.findIdx? (fun st => st = doc.status) with
    | none =>
      (.error (createWorkflowErrorA ("Cannot advance document " ++ id ++
        ": already at terminal status '" ++ statusAName doc.status ++ "'")), store)
    | some currentIndex =>
      if currentIndex = STATUS_ORDER.length - 1 then
        (.error (createWorkflowErrorA ("Cannot advance document " ++ id ++
          ": already at terminal status '" ++ statusAName doc.status ++ "'")), store)
      else
        let doc2 := { doc with
          status := STATUS_ORDER.getD (currentIndex + 1) doc.status
          updatedAt := tNow }
        (.ok doc2, storeSetA store id doc2)

/-- `setStatus(id, newStatus)` of the 5-state module. -/
def setStatusA (tNow : String) (id : String) (newStatus : StatusA)
    (store : StoreA) : Except JsError DocA × StoreA :=
  match List.lookup id store with
  | none => (.error (createNotFoundErrorA id), store)
  | some doc =>
    let allowedTransitions := VALID_TRANSITIONS doc.status
    if allowedTransitions.contains newStatus then
      let doc2 := { doc with status := newStatus, updatedAt := tNow }
      (.ok doc2, storeSetA store id doc2)
    else
      let joined := ", ".intercalate (allowedTransitions.map statusAName)
      (.error (createWorkflowErrorA ("Invalid status transition: '" ++
        statusAName doc.status ++ "' → '" ++ statusAName newStatus ++
        "'. Allowed transitions: " ++ (if joined = "" then "none" else joined))),
       store)

/-! ### Workflow variant B: the 6-state branching module
(the `invoicePayables` module matching the Light API: INIT → SUBMITTED →
APPROVED → PAID with CANCELED / DECLINED side exits). -/

inductive StatusB
  | INIT | SUBMITTED | APPROVED | PAID | CANCELED | DECLINED
deriving DecidableEq, Repr

def statusBName : StatusB → String
  | .INIT => "INIT"
  | .SUBMITTED => "SUBMITTED"
  | .APPROVED => "APPROVED"
  | .PAID => "PAID"
  | .CANCELED => "CANCELED"
  | .DECLINED => "DECLINED"

/-- `STATE_TRANSITIONS`: the branching transition table. -/
def STATE_TRANSITIONS : StatusB → List StatusB
  | .INIT => [.SUBMITTED, .CANCELED]
  | .SUBMITTED => [.APPROVED, .DECLINED, .CANCELED]
  | .APPROVED => [.PAID, .CANCELED]
  | .PAID => []
  | .CANCELED => []
  | .DECLINED => []

/-- `ADVANCE_MAP`: states that can be advanced to the next step. -/
def ADVANCE_MAP : StatusB → Option StatusB
  | .INIT => some .SUBMITTED
  | .SUBMITTED => some .APPROVED
  | .APPROVED => some .PAID
  | _ => none

/-- `TERMINAL_STATES`. -/
def TERMINAL_STATES : List StatusB := [.PAID, .CANCELED, .DECLINED]

structure Vendor where
  vendorId : String
  vendorName : String
deriving DecidableEq, Repr

structure NextApprover where
  userId : String
  firstName : String
  lastName : String
  fullName : String
  approvalSentAt : String
deriving DecidableEq, Repr

/-- `InvoicePayable` as stored by the 6-state module.  The purely
decorative optional fields never read or written by any operation
(`user`, `failureReason`, `failureContext`) are omitted. -/
structure DocB where
  id : String
  type : String
  state : StatusB
  version : Nat
  documentKey : Option String
  documentName : String
  invoiceNumber : Option String
  vendor : Vendor
  senderEmail : Option String
  companyId : String
  companyEntityName : String
  amount : Int
  currency : String
  dueDate : Option String
  issuedDate : String
  paymentAt : Option String
  nextApprover : Option NextApprover
  approvalNote : Option String
  canceledAt : Option String
  cancellationReason : Option String
  declineReason : Option String
  metadataType : String
  description : String
  lineItems : List LineItem
  createdAt : String
  updatedAt : String
deriving DecidableEq, Repr

abbrev StoreB : Type := List (String × DocB)

def createNotFoundErrorB (id : String) (entity : String) : JsError :=
  ⟨entity ++ " not found: " ++ id, some 404⟩

def createWorkflowErrorB (message : String) : JsError :=
  ⟨message, some 422⟩

def storeSetB (store : StoreB) (id : String) (d : DocB) : StoreB :=
  store.map (fun kv => if kv.1 = id then (kv.1, d) else kv)

/-- `lineItems.reduce((sum, li) => sum + li.totalAmount.amountInMajors, 0)`. -/
def sumLineItemAmounts (items : List LineItem) : Int :=
  items.foldl (fun sum li => sum + li.totalAmount.amountInMajors) 0

/-- `advance(id)`: move to `ADVANCE_MAP[state]`, bump version, refresh
`updatedAt`; additionally stamp `paymentAt` when reaching PAID. -/
def advanceB (tNow : String) (id : String) (store : StoreB) :
    Except JsError DocB × StoreB :=
  match List.lookup id store with
  | none => (.error (createNotFoundErrorB id "Invoice"), store)
  | some invoice =>
    match ADVANCE_MAP invoice.state with
    | none =>
      (.error (createWorkflowErrorB ("Cannot advance invoice " ++ id ++
        ": already at terminal state '" ++ statusBName invoice.state ++ "'")), store)
    | some nextState =>
      let inv2 := { invoice with
        state := nextState
        version := invoice.version + 1
        updatedAt := tNow }
      let inv3 := if nextState = .PAID then { inv2 with paymentAt := some tNow } else inv2
      (.ok inv3, storeSetB store id inv3)

/-- `submit(id)`: INIT → SUBMITTED, populating `nextApprover`. -/
def submitB (tNow : String) (id : String) (store : StoreB) :
    Except JsError DocB × StoreB :=
  match List.lookup id store with
  | none => (.error (createNotFoundErrorB id "Invoice"), store)
  | some invoice =>
    if invoice.state ≠ .INIT then
      (.error (createWorkflowErrorB ("Cannot submit invoice " ++ id ++
        ": must be in INIT state. Current state: " ++ statusBName invoice.state)), store)
    else
      let inv2 := { invoice with
        state := .SUBMITTED
        version := invoice.version + 1
        updatedAt := tNow
        nextApprover := some ⟨"user-finance-01", "Finance", "Team", "Finance Team", tNow⟩ }
      (.ok inv2, storeSetB store id inv2)

/-- `approve(id, input)`: SUBMITTED → APPROVED. -/
def approveB (tNow : String) (id : String) (approvalNote : Option String)
    (store : StoreB) : Except JsError DocB × StoreB :=
  match List.lookup id store with
  | none => (.error (createNotFoundErrorB id "Invoice"), store)
  | some invoice =>
    if invoice.state ≠ .SUBMITTED then
      (.error (createWorkflowErrorB ("Cannot approve invoice " ++ id ++
        ": must be in SUBMITTED state. Current state: " ++ statusBName invoice.state)), store)
    else
      let inv2 := { invoice with
        state := .APPROVED
        version := invoice.version + 1
        updatedAt := tNow
        approvalNote := approvalNote
        nextApprover := none }
      (.ok inv2, storeSetB store id inv2)

/-- `decline(id, input)`: SUBMITTED → DECLINED (terminal). -/
def declineB (tNow : String) (id : String) (declineReason : String)
    (store : StoreB) : Except JsError DocB × StoreB :=
  match List.lookup id store with
  | none => (.error (createNotFoundErrorB id "Invoice"), store)
  | some invoice =>
    if invoice.state ≠ .SUBMITTED then
      (.error (createWorkflowErrorB ("Cannot decline invoice " ++ id ++
        ": must be in SUBMITTED state. Current state: " ++ statusBName invoice.state)), store)
    else
      let inv2 := { invoice with
        state := .DECLINED
        version := invoice.version + 1
        updatedAt := tNow
        declineReason := some declineReason
        nextApprover := none }
      (.ok inv2, storeSetB store id inv2)

/-- `cancel(id, input)`: any non-terminal state → CANCELED (terminal). -/
def cancelB (tNow : String) (id : String) (cancellationReason : String)
    (store : StoreB) : Except JsError DocB × StoreB :=
  match List.lookup id store with
  | none => (.error (createNotFoundErrorB id "Invoice"), store)
  | some invoice =>
    if TERMINAL_STATES.contains invoice.state then
      (.error (createWorkflowErrorB ("Cannot cancel invoice " ++ id ++
        ": already at terminal state '" ++ statusBName invoice.state ++ "'")), store)
    else
      let inv2 := { invoice with
        state := .CANCELED
        version := invoice.version + 1
        updatedAt := tNow
        canceledAt := some tNow
        cancellationReason := some cancellationReason }
      (.ok inv2, storeSetB store id inv2)

/-- `markPaid(id)`: APPROVED → PAID (terminal). -/
def markPaidB (tNow : String) (id : String) (store : StoreB) :
    Except JsError DocB × StoreB :=
  match List.lookup id store with
  | none => (.error (createNotFoundErrorB id "Invoice"), store)
  | some invoice =>
    if invoice.state ≠ .APPROVED then
      (.error (createWorkflowErrorB ("Cannot mark invoice " ++ id ++
        " as paid: must be in APPROVED state. Current state: " ++ statusBName invoice.state)), store)
    else
      let inv2 := { invoice with
        state := .PAID
        version := invoice.version + 1
        updatedAt := tNow
        paymentAt := some tNow }
      (.ok inv2, storeSetB store id inv2)

/-- A line item without its `id`, as supplied to create/update calls. -/
structure LineItemDraft where
  description : String
  quantity : Int
  unitPrice : Money
  totalAmount : Money
  accountCode : String
deriving DecidableEq, Repr

def LineItemDraft.withId (item : LineItemDraft) (id : String) : LineItem :=
  ⟨id, item.description, item.quantity, item.unitPrice, item.totalAmount,
    item.accountCode⟩

/-- `UpdateInvoicePayableInput`: all fields optional. -/
structure UpdateInputB where
  vendorName : Option String
  amount : Option Int
  currency : Option String
  description : Option String
  dueDate : Option String
  lineItems : Option (List LineItemDraft)
deriving DecidableEq, Repr

/-- `update(id, input)`: only allowed in INIT; applies present fields,
bumps version, refreshes `updatedAt`. -/
def updateB (tNow : String) (id : String) (input : UpdateInputB)
    (store : StoreB) : Except JsError DocB × StoreB :=
  match List.lookup id store with
  | none => (.error (createNotFoundErrorB id "Invoice"), store)
  | some invoice =>
    if invoice.state ≠ .INIT then
      (.error (createWorkflowErrorB ("Cannot update invoice " ++ id ++
        ": only INIT invoices can be updated. Current state: " ++
        statusBName invoice.state)), store)
    else
      let inv2 := { invoice with
        vendor := match input.vendorName with
          | some v => { invoice.vendor with vendorName := v }
          | none => invoice.vendor
        amount := input.amount.getD invoice.amount
        currency := input.currency.getD invoice.currency
        description := input.description.getD invoice.description
        dueDate := match input.dueDate with
          | some d => some d
          | none => invoice.dueDate
        lineItems := match input.lineItems with
          | some items => items.mapIdx (fun i item =>
              item.withId (id ++ "-li-" ++ toString i))
          | none => invoice.lineItems
        version := invoice.version + 1
        updatedAt := tNow }
      (.ok inv2, storeSetB store id inv2)

/-- `createLineItem(invoiceId, item)`: only in INIT; appends the item,
bumps version, refreshes `updatedAt` and recomputes `amount`. -/
def createLineItemB (tNow : String) (invoiceId : String)
    (item : LineItemDraft) (store : StoreB) :
    Except JsError LineItem × StoreB :=
  match List.lookup invoiceId store with
  | none => (.error (createNotFoundErrorB invoiceId "Invoice"), store)
  | some invoice =>
    if invoice.state ≠ .INIT then
      (.error (createWorkflowErrorB ("Cannot add line item: invoice must be in INIT state. Current state: " ++
        statusBName invoice.state)), store)
    else
      let lineItem := item.withId
        (invoiceId ++ "-li-" ++ toString invoice.lineItems.length)
      let newItems := invoice.lineItems ++ [lineItem]
      let inv2 := { invoice with
        lineItems := newItems
        version := invoice.version + 1
        updatedAt := tNow
        amount := sumLineItemAmounts newItems }
      (.ok lineItem, storeSetB store invoiceId inv2)

/-- A partial line-item patch (`Partial<Omit<LineItem, 'id'>>`). -/
structure LineItemPatch where
  description : Option String
  quantity : Option Int
  unitPrice : Option Money
  totalAmount : Option Money
  accountCode : Option String
deriving DecidableEq, Repr

def LineItemPatch.applyTo (patch : LineItemPatch) (li : LineItem) : LineItem :=
  { li with
    description := patch.description.getD li.description
    quantity := patch.quantity.getD li.quantity
    unitPrice := patch.unitPrice.getD li.unitPrice
    totalAmount := patch.totalAmount.getD li.totalAmount
    accountCode := patch.accountCode.getD li.accountCode }

/-- `updateLineItem(invoiceId, lineItemId, updates)`: only in INIT, and the
line item must exist; merges, bumps version, refreshes `updatedAt`,
recomputes `amount`. -/
def updateLineItemB (tNow : String) (invoiceId : String) (lineItemId : String)
    (updates : LineItemPatch) (store : StoreB) :
    Except JsError LineItem × StoreB :=
  match List.lookup invoiceId store with
  | none => (.error (createNotFoundErrorB invoiceId "Invoice"), store)
  | some invoice =>
    if invoice.state ≠ .INIT then
      (.error (createWorkflowErrorB ("Cannot update line item: invoice must be in INIT state. Current state: " ++
        statusBName invoice.state)), store)
    else
      match invoice.lineItems.findIdx? (fun li => li.id = lineItemId) with
      | none => (.error (createNotFoundErrorB lineItemId "Line item"), store)
      | some index =>
        let merged := updates.applyTo (invoice.lineItems.getD index
          ⟨lineItemId, "", 0, ⟨0, ""⟩, ⟨0, ""⟩, ""⟩)
        let newItems := invoice.lineItems.set index merged
        let inv2 := { invoice with
          lineItems := newItems
          version := invoice.version + 1
          updatedAt := tNow
          amount := sumLineItemAmounts newItems }
        (.ok merged, storeSetB store invoiceId inv2)

/-- `deleteLineItem(invoiceId, lineItemId)`: only in INIT, and the line
item must exist; splices it out, bumps version, refreshes `updatedAt`,
recomputes `amount`. -/
def deleteLineItemB (tNow : String) (invoiceId : String) (lineItemId : String)
    (store : StoreB) : Except JsError Unit × StoreB :=
  match List.lookup invoiceId store with
  | none => (.error (createNotFoundErrorB invoiceId "Invoice"), store)
  | some invoice =>
    if invoice.state ≠ .INIT then
      (.error (createWorkflowErrorB ("Cannot delete line item: invoice must be in INIT state. Current state: " ++
        statusBName invoice.state)), store)
    else
      match invoice.lineItems.findIdx? (fun li => li.id = lineItemId) with
      | none => (.error (createNotFoundErrorB lineItemId "Line item"), store)
      | some index =>
        let newItems := invoice.lineItems.eraseIdx index
        let inv2 := { invoice with
          lineItems := newItems
          version := invoice.version + 1
          updatedAt := tNow
          amount := sumLineItemAmounts newItems }
        (.ok (), storeSetB store invoiceId inv2)

/-! ### Store helper lemma -/

theorem lookup_setEntry {β : Type} (id : String) (d : β) :
    ∀ (store : List (String × β)) (c : β), List.lookup id store = some c →
    List.lookup id (store.map (fun kv => if kv.1 = id then (kv.1, d) else kv))
      = some d := by
  intro store
  induction store with
  | nil => intro c hc; simp [List.lookup] at hc
  | cons kv t ih =>
    intro c hc
    by_cases h : kv.1 = id
    · simp only [List.map_cons, if_pos h]
      rw [List.lookup_cons]
      simp [h]
    · simp only [List.map_cons, if_neg h]
      rw [List.lookup_cons]
      rw [List.lookup_cons] at hc
      have hbeq : (id == kv.1) = false := by
        simp only [beq_eq_false_iff_ne, ne_eq]
        intro hcontra
        exact h hcontra.symm
      rw [hbeq] at hc ⊢
      exact ih c hc

/-! ### Claim theorems for the workflow modules -/

/-- Claim C3: calling advance on a document in a terminal state raises a
WorkflowError and leaves the store (hence the document) completely
unchanged, in both workflow-module variants.  In the 5-state module the
only representable terminal state among PAID/CANCELED/DECLINED is PAID
(its status type has no CANCELED or DECLINED); in the 6-state module all
three are covered. -/
theorem c3_terminal_advance :
    (∀ (tNow id : String) (store : StoreA) (doc : DocA),
      List.lookup id store = some doc → doc.status = .PAID →
      advanceA tNow id store = (.error (createWorkflowErrorA
        ("Cannot advance document " ++ id ++
          ": already at terminal status '" ++ statusAName doc.status ++ "'")),
        store))
    ∧ (∀ (tNow id : String) (store : StoreB) (invoice : DocB),
      List.lookup id store = some invoice → invoice.state ∈ TERMINAL_STATES →
      advanceB tNow id store = (.error (createWorkflowErrorB
        ("Cannot advance invoice " ++ id ++
          ": already at terminal state '" ++ statusBName invoice.state ++ "'")),
        store)) := by
  constructor
  · intro tNow id store doc hl hst
    unfold advanceA
    rw [hl]
    dsimp only
    rw [hst, show STATUS_ORDER.findIdx? (fun st => st = StatusA.PAID)
        = some 4 from by decide]
    dsimp only
    rw [if_pos (by decide : (4 : Nat) = STATUS_ORDER.length - 1)]
  · intro tNow id store invoice hl hmem
    unfold advanceB
    rw [hl]
    dsimp only
    have hadv : ADVANCE_MAP invoice.state = none := by
      simp only [TERMINAL_STATES, List.mem_cons, List.mem_singleton,
        List.not_mem_nil, or_false] at hmem
      rcases hmem with h | h | h <;> rw [h] <;> rfl
    rw [hadv]

/-- A sample 5-state document, parameterised by status. -/
def sampleDocA (st : StatusA) : DocA where
  id := "inv-1"
  documentType := "AP"
  status := st
  documentNumber := "AP-1"
  documentDate := "2024-01-01"
  createdAt := "T0"
  updatedAt := "T0"
  businessPartnerId := "bp-1"
  businessPartnerName := "Acme"
  description := ""
  totalTransactionAmount := ⟨0, "USD"⟩
  lineItems := []

/-- A sample 6-state invoice, parameterised by state. -/
def sampleDocB (st : StatusB) : DocB where
  id := "inv-1"
  type := "VENDOR_INVOICE"
  state := st
  version := 1
  documentKey := some "doc-1"
  documentName := "INV-1"
  invoiceNumber := some "INV-10001"
  vendor := ⟨"vendor-1", "BarkBox Wholesale"⟩
  senderEmail := none
  companyId := "company-42"
  companyEntityName := "Paws & Claws Pet Emporium"
  amount := 100
  currency := "USD"
  dueDate := none
  issuedDate := "2024-01-01"
  paymentAt := none
  nextApprover := none
  approvalNote := none
  canceledAt := none
  cancellationReason := none
  declineReason := none
  metadataType := "VENDOR_INVOICE_METADATA"
  description := ""
  lineItems := [⟨"inv-1-li-0", "Squeaky Bone Toy", 2, ⟨50, "USD"⟩, ⟨100, "USD"⟩, "1000"⟩]
  createdAt := "T0"
  updatedAt := "T0"

/-- Claim C3 witness: a concrete PAID document in the 5-state store and a
concrete CANCELED invoice in the 6-state store. -/
theorem c3_terminal_advance_witness :
    (List.lookup "inv-1" [("inv-1", sampleDocA .PAID)] = some (sampleDocA .PAID)
      ∧ (sampleDocA .PAID).status = .PAID
      ∧ List.lookup "inv-1" [("inv-1", sampleDocB .CANCELED)] = some (sampleDocB .CANCELED)
      ∧ (sampleDocB .CANCELED).state ∈ TERMINAL_STATES)
    ∧ advanceA "T1" "inv-1" [("inv-1", sampleDocA .PAID)]
      = (.error (createWorkflowErrorA ("Cannot advance document " ++ "inv-1" ++
          ": already at terminal status '" ++ statusAName (sampleDocA .PAID).status ++ "'")),
        [("inv-1", sampleDocA .PAID)])
    ∧ advanceB "T1" "inv-1" [("inv-1", sampleDocB .CANCELED)]
      = (.error (createWorkflowErrorB ("Cannot advance invoice " ++ "inv-1" ++
          ": already at terminal state '" ++ statusBName (sampleDocB .CANCELED).state ++ "'")),
        [("inv-1", sampleDocB .CANCELED)]) :=
  ⟨⟨by decide, by decide, by decide, by decide⟩,
    c3_terminal_advance.1 "T1" "inv-1" _ _ (by decide) (by decide),
    c3_terminal_advance.2 "T1" "inv-1" _ _ (by decide) (by decide)⟩

/-- Claim C4: in the 5-state module, `setStatus(id, 'PAID')` on a document
in the initial state DRAFT raises a WorkflowError whose message names the
current state, the attempted target and the full list of legal next
states; and for every stored document, `setStatus(id, target)` succeeds
exactly when `target` is in the transition table's allowed set for the
document's current state. -/
theorem c4_forward_only :
    (∀ (tNow id : String) (store : StoreA) (doc : DocA),
      List.lookup id store = some doc → doc.status = .DRAFT →
      setStatusA tNow id .PAID store = (.error (createWorkflowErrorA
        "Invalid status transition: 'DRAFT' → 'PAID'. Allowed transitions: SUBMITTED"),
        store))
    ∧ (∀ (tNow id : String) (newStatus : StatusA) (store : StoreA) (doc : DocA),
      List.lookup id store = some doc →
      ((∃ d, (setStatusA tNow id newStatus store).1 = .ok d) ↔
        newStatus ∈ VALID_TRANSITIONS doc.status)) := by
  constructor
  · intro tNow id store doc hl hst
    unfold setStatusA
    rw [hl]
    dsimp only
    rw [hst]
    rw [if_neg (by decide :
      ¬ (VALID_TRANSITIONS .DRAFT).contains StatusA.PAID = true)]
    simp only [Prod.mk.injEq]
    exact ⟨by decide, trivial⟩
  · intro tNow id newStatus store doc hl
    unfold setStatusA
    rw [hl]
    dsimp only
    by_cases hc : (VALID_TRANSITIONS doc.status).contains newStatus
    · rw [if_pos hc]
      have hm : newStatus ∈ VALID_TRANSITIONS doc.status := by
        simpa [List.elem_iff] using hc
      simpa using hm
    · rw [if_neg hc]
      have hm : newStatus ∉ VALID_TRANSITIONS doc.status := by
        intro hmem
        exact hc (by simpa [List.elem_iff] using hmem)
      simpa using hm

/-- Claim C4 witness: a DRAFT document; `setStatus` to PAID fails with the
full message, and succeeds exactly for SUBMITTED. -/
theorem c4_forward_only_witness :
    ((sampleDocA .DRAFT).status = .DRAFT
      ∧ List.lookup "inv-1" [("inv-1", sampleDocA .DRAFT)] = some (sampleDocA .DRAFT))
    ∧ setStatusA "T1" "inv-1" .PAID [("inv-1", sampleDocA .DRAFT)]
      = (.error (createWorkflowErrorA
          "Invalid status transition: 'DRAFT' → 'PAID'. Allowed transitions: SUBMITTED"),
        [("inv-1", sampleDocA .DRAFT)])
    ∧ ((∃ d, (setStatusA "T1" "inv-1" .SUBMITTED [("inv-1", sampleDocA .DRAFT)]).1 = .ok d)
        ↔ StatusA.SUBMITTED ∈ VALID_TRANSITIONS (sampleDocA .DRAFT).status) :=
  ⟨⟨by decide, by decide⟩,
    c4_forward_only.1 "T1" "inv-1" [("inv-1", sampleDocA .DRAFT)]
      (sampleDocA .DRAFT) (by decide) (by decide),
    c4_forward_only.2 "T1" "inv-1" .SUBMITTED [("inv-1", sampleDocA .DRAFT)]
      (sampleDocA .DRAFT) (by decide)⟩

/-- Claim C5 counterexample: the 5-state `VALID_TRANSITIONS` table DOES
contain a directed cycle — DRAFT → SUBMITTED (submission) followed by
SUBMITTED → DRAFT (the rejection back-edge) returns to DRAFT.  So the
claim that both transition tables are acyclic is false. -/
theorem c5_counterexample :
    ∃ s : StatusA, Relation.TransGen (fun a b => b ∈ VALID_TRANSITIONS a) s s :=
  ⟨.DRAFT, @Relation.TransGen.head StatusA
    (fun a b => b ∈ VALID_TRANSITIONS a) .DRAFT .SUBMITTED .DRAFT
    (by decide) (@Relation.TransGen.single StatusA
      (fun a b => b ∈ VALID_TRANSITIONS a) .SUBMITTED .DRAFT (by decide))⟩

/-- A topological rank witnessing acyclicity of the 6-state table. -/
def rankB : StatusB → Nat
  | .INIT => 0
  | .SUBMITTED => 1
  | .APPROVED => 2
  | .PAID => 3
  | .CANCELED => 3
  | .DECLINED => 3

theorem edgeB_rank : ∀ a b : StatusB, b ∈ STATE_TRANSITIONS a →
    rankB a < rankB b := by
  intro a b h
  cases a <;> cases b <;> revert h <;> decide

/-- Claim C5 amended: both transition tables have at least one terminal
node (out-degree 0); the 6-state `STATE_TRANSITIONS` table is acyclic;
but the 5-state `VALID_TRANSITIONS` table contains a cycle through its
rejection back-edges. -/
theorem c5_amended :
    (∃ s : StatusA, VALID_TRANSITIONS s = [])
    ∧ (∃ s : StatusB, STATE_TRANSITIONS s = [])
    ∧ (∃ s : StatusA, Relation.TransGen (fun a b => b ∈ VALID_TRANSITIONS a) s s)
    ∧ ¬ ∃ s : StatusB, Relation.TransGen (fun a b => b ∈ STATE_TRANSITIONS a) s s := by
  refine ⟨⟨.PAID, rfl⟩, ⟨.PAID, rfl⟩,
    ⟨.DRAFT, @Relation.TransGen.head StatusA
      (fun a b => b ∈ VALID_TRANSITIONS a) .DRAFT .SUBMITTED .DRAFT
      (by decide) (@Relation.TransGen.single StatusA
        (fun a b => b ∈ VALID_TRANSITIONS a) .SUBMITTED .DRAFT (by decide))⟩, ?_⟩
  rintro ⟨s, hs⟩
  have mono : ∀ x y : StatusB,
      Relation.TransGen (fun a b => b ∈ STATE_TRANSITIONS a) x y →
      rankB x < rankB y := by
    intro x y h
    induction h with
    | single h => exact edgeB_rank _ _ h
    | tail _ h ih => exact lt_trans ih (edgeB_rank _ _ h)
  exact lt_irrefl _ (mono s s hs)

/-- The mutating operations of the 6-state module, with their inputs. -/
inductive OpB
  | advance (id : String)
  | submit (id : String)
  | approve (id : String) (approvalNote : Option String)
  | decline (id : String) (declineReason : String)
  | cancel (id : String) (cancellationReason : String)
  | markPaid (id : String)
  | update (id : String) (input : UpdateInputB)
  | createLineItem (id : String) (item : LineItemDraft)
  | updateLineItem (id : String) (lineItemId : String) (updates : LineItemPatch)
  | deleteLineItem (id : String) (lineItemId : String)

/-- The invoice id an operation addresses. -/
def opIdB : OpB → String
  | .advance id => id
  | .submit id => id
  | .approve id _ => id
  | .decline id _ => id
  | .cancel id _ => id
  | .markPaid id => id
  | .update id _ => id
  | .createLineItem id _ => id
  | .updateLineItem id _ _ => id
  | .deleteLineItem id _ => id

/-- Run a mutating operation of the 6-state module, keeping only whether
it succeeded and the store after the call. -/
def runB (op : OpB) (tNow : String) (store : StoreB) :
    Except JsError Unit × StoreB :=
  match op with
  | .advance id =>
    let r := advanceB tNow id store; (r.1.map (fun _ => ()), r.2)
  | .submit id =>
    let r := submitB tNow id store; (r.1.map (fun _ => ()), r.2)
  | .approve id note =>
    let r := approveB tNow id note store; (r.1.map (fun _ => ()), r.2)
  | .decline id reason =>
    let r := declineB tNow id reason store; (r.1.map (fun _ => ()), r.2)
  | .cancel id reason =>
    let r := cancelB tNow id reason store; (r.1.map (fun _ => ()), r.2)
  | .markPaid id =>
    let r := markPaidB tNow id store; (r.1.map (fun _ => ()), r.2)
  | .update id input =>
    let r := updateB tNow id input store; (r.1.map (fun _ => ()), r.2)
  | .createLineItem id item =>
    let r := createLineItemB tNow id item store; (r.1.map (fun _ => ()), r.2)
  | .updateLineItem id liId patch =>
    let r := updateLineItemB tNow id liId patch store; (r.1.map (fun _ => ()), r.2)
  | .deleteLineItem id liId =>
    let r := deleteLineItemB tNow id liId store; (r.1.map (fun _ => ()), r.2)

/-- Claim C6 counterexample: a successful `setStatus` in the 5-state
module returns and stores a document that is the old document with ONLY
`status` and `updatedAt` changed — the 5-state `AccountingDocument` has no
version counter at all, so no version is "exactly one greater than
before", contradicting the claim for the listed `setStatus` operation. -/
theorem c6_counterexample :
    setStatusA "T1" "inv-1" .SUBMITTED [("inv-1", sampleDocA .DRAFT)]
      = (.ok { sampleDocA .DRAFT with status := .SUBMITTED, updatedAt := "T1" },
        [("inv-1", { sampleDocA .DRAFT with status := .SUBMITTED, updatedAt := "T1" })]) := by
  decide

/-- Claim C6 amended: in the 6-state module every successful mutating
operation (advance, submit, approve, decline, cancel, markPaid, update and
the line-item mutations) stores a document whose version counter is
exactly one greater than before, whose `updatedAt` is the operation time
and whose `createdAt` is unchanged.  In the 5-state module documents carry
no version counter: a successful `setStatus` stores exactly the old
document with only `status` and `updatedAt` changed (so `createdAt` and
everything else is preserved), and likewise `advance` changes only
`status` and `updatedAt`. -/
theorem c6_version_frame :
    (∀ (op : OpB) (tNow : String) (store : StoreB),
      (runB op tNow store).1 = .ok () →
      ∀ doc, List.lookup (opIdB op) store = some doc →
      ∃ doc2, List.lookup (opIdB op) (runB op tNow store).2 = some doc2
        ∧ doc2.version = doc.version + 1
        ∧ doc2.updatedAt = tNow
        ∧ doc2.createdAt = doc.createdAt)
    ∧ (∀ (tNow id : String) (newStatus : StatusA) (store : StoreA) (doc d : DocA),
      List.lookup id store = some doc →
      (setStatusA tNow id newStatus store).1 = .ok d →
      d = { doc with status := newStatus, updatedAt := tNow })
    ∧ (∀ (tNow id : String) (store : StoreA) (doc d : DocA),
      List.lookup id store = some doc →
      (advanceA tNow id store).1 = .ok d →
      ∃ st, d = { doc with status := st, updatedAt := tNow }) := by
  refine ⟨?_, ?_, ?_⟩
  · intro op tNow store hok doc hdoc
    cases op with
    | advance id =>
      simp only [opIdB] at hdoc ⊢
      simp only [runB, advanceB, hdoc] at hok ⊢
      cases hA : ADVANCE_MAP doc.state with
      | none => simp [hA, Except.map] at hok
      | some nxt =>
        dsimp only
        by_cases hp : nxt = .PAID
        · rw [if_pos hp]
          simp only [storeSetB]
          exact ⟨_, lookup_setEntry id _ store doc hdoc, rfl, rfl, rfl⟩
        · rw [if_neg hp]
          simp only [storeSetB]
          exact ⟨_, lookup_setEntry id _ store doc hdoc, rfl, rfl, rfl⟩
    | submit id =>
      simp only [opIdB] at hdoc ⊢
      simp only [runB, submitB, hdoc] at hok ⊢
      by_cases hst : doc.state ≠ StatusB.INIT
      · rw [if_pos hst] at hok; simp [Except.map] at hok
      · rw [if_neg hst] at hok ⊢
        simp only [storeSetB]
        exact ⟨_, lookup_setEntry id _ store doc hdoc, rfl, rfl, rfl⟩
    | approve id note =>
      simp only [opIdB] at hdoc ⊢
      simp only [runB, approveB, hdoc] at hok ⊢
      by_cases hst : doc.state ≠ StatusB.SUBMITTED
      · rw [if_pos hst] at hok; simp [Except.map] at hok
      · rw [if_neg hst] at hok ⊢
        simp only [storeSetB]
        exact ⟨_, lookup_setEntry id _ store doc hdoc, rfl, rfl, rfl⟩
    | decline id reason =>
      simp only [opIdB] at hdoc ⊢
      simp only [runB, declineB, hdoc] at hok ⊢
      by_cases hst : doc.state ≠ StatusB.SUBMITTED
      · rw [if_pos hst] at hok; simp [Except.map] at hok
      · rw [if_neg hst] at hok ⊢
        simp only [storeSetB]
        exact ⟨_, lookup_setEntry id _ store doc hdoc, rfl, rfl, rfl⟩
    | cancel id reason =>
      simp only [opIdB] at hdoc ⊢
      simp only [runB, cancelB, hdoc] at hok ⊢
      by_cases hst : TERMINAL_STATES.contains doc.state
      · rw [if_pos hst] at hok; simp [Except.map] at hok
      · rw [if_neg hst] at hok ⊢
        simp only [storeSetB]
        exact ⟨_, lookup_setEntry id _ store doc hdoc, rfl, rfl, rfl⟩
    | markPaid id =>
      simp only [opIdB] at hdoc ⊢
      simp only [runB, markPaidB, hdoc] at hok ⊢
      by_cases hst : doc.state ≠ StatusB.APPROVED
      · rw [if_pos hst] at hok; simp [Except.map] at hok
      · rw [if_neg hst] at hok ⊢
        simp only [storeSetB]
        exact ⟨_, lookup_setEntry id _ store doc hdoc, rfl, rfl, rfl⟩
    | update id input =>
      simp only [opIdB] at hdoc ⊢
      simp only [runB, updateB, hdoc] at hok ⊢
      by_cases hst : doc.state ≠ StatusB.INIT
      · rw [if_pos hst] at hok; simp [Except.map] at hok
      · rw [if_neg hst] at hok ⊢
        simp only [storeSetB]
        exact ⟨_, lookup_setEntry id _ store doc hdoc, rfl, rfl, rfl⟩
    | createLineItem id item =>
      simp only [opIdB] at hdoc ⊢
      simp only [runB, createLineItemB, hdoc] at hok ⊢
      by_cases hst : doc.state ≠ StatusB.INIT
      · rw [if_pos hst] at hok; simp [Except.map] at hok
      · rw [if_neg hst] at hok ⊢
        simp only [storeSetB]
        exact ⟨_, lookup_setEntry id _ store doc hdoc, rfl, rfl, rfl⟩
    | updateLineItem id liId patch =>
      simp only [opIdB] at hdoc ⊢
      simp only [runB, updateLineItemB, hdoc] at hok ⊢
      by_cases hst : doc.state ≠ StatusB.INIT
      · rw [if_pos hst] at hok; simp [Except.map] at hok
      · rw [if_neg hst] at hok ⊢
        cases hf : doc.lineItems.findIdx? (fun li => li.id = liId) with
        | none => simp [hf, Except.map] at hok
        | some index =>
          dsimp only
          simp only [storeSetB]
          exact ⟨_, lookup_setEntry id _ store doc hdoc, rfl, rfl, rfl⟩
    | deleteLineItem id liId =>
      simp only [opIdB] at hdoc ⊢
      simp only [runB, deleteLineItemB, hdoc] at hok ⊢
      by_cases hst : doc.state ≠ StatusB.INIT
      · rw [if_pos hst] at hok; simp [Except.map] at hok
      · rw [if_neg hst] at hok ⊢
        cases hf : doc.lineItems.findIdx? (fun li => li.id = liId) with
        | none => simp [hf, Except.map] at hok
        | some index =>
          dsimp only
          simp only [storeSetB]
          exact ⟨_, lookup_setEntry id _ store doc hdoc, rfl, rfl, rfl⟩
  · intro tNow id newStatus store doc d hl hok
    unfold setStatusA at hok
    rw [hl] at hok
    dsimp only at hok
    by_cases hc : (VALID_TRANSITIONS doc.status).contains newStatus
    · rw [if_pos hc] at hok
      simp only [Except.ok.injEq] at hok
      exact hok.symm
    · rw [if_neg hc] at hok
      simp [Except.map] at hok
  · intro tNow id store doc d hl hok
    unfold advanceA at hok
    rw [hl] at hok
    dsimp only at hok
    cases hI : STATUS_ORDER.findIdx? (fun st => st = doc.status) with
    | none => rw [hI] at hok; simp at hok
    | some currentIndex =>
      rw [hI] at hok
      dsimp only at hok
      by_cases hlast : currentIndex = STATUS_ORDER.length - 1
      · rw [if_pos hlast] at hok; simp [Except.map] at hok
      · rw [if_neg hlast] at hok
        simp only [Except.ok.injEq] at hok
        exact ⟨STATUS_ORDER.getD (currentIndex + 1) doc.status, hok.symm⟩

/-- Claim C6 witness: submitting a concrete INIT invoice in the 6-state
module bumps its version from 1 to 2, and a concrete `setStatus` in the
5-state module yields exactly the old document with new status and
timestamp. -/
theorem c6_version_frame_witness :
    ((runB (.submit "inv-1") "T1" [("inv-1", sampleDocB .INIT)]).1 = .ok ()
      ∧ List.lookup "inv-1" [("inv-1", sampleDocB .INIT)] = some (sampleDocB .INIT))
    ∧ (∃ doc2, List.lookup "inv-1"
          (runB (.submit "inv-1") "T1" [("inv-1", sampleDocB .INIT)]).2 = some doc2
        ∧ doc2.version = (sampleDocB .INIT).version + 1
        ∧ doc2.updatedAt = "T1"
        ∧ doc2.createdAt = (sampleDocB .INIT).createdAt)
    ∧ ({ sampleDocA .DRAFT with status := .SUBMITTED, updatedAt := "T1" } : DocA)
      = { sampleDocA .DRAFT with status := .SUBMITTED, updatedAt := "T1" } :=
  ⟨⟨by decide, by decide⟩,
    c6_version_frame.1 (.submit "inv-1") "T1" [("inv-1", sampleDocB .INIT)]
      (by decide) (sampleDocB .INIT) (by decide),
    c6_version_frame.2.1 "T1" "inv-1" .SUBMITTED [("inv-1", sampleDocA .DRAFT)]
      (sampleDocA .DRAFT) { sampleDocA .DRAFT with status := .SUBMITTED, updatedAt := "T1" }
      (by decide) (by decide)⟩

/-! ### Filter / sort parsing and evaluation (`src/filters.ts`)

String manipulation is modelled on character lists (JS `split`, `trim`,
`toLowerCase`, `includes`, `startsWith` are single-character-separator or
ASCII operations here), wrapped back into `String` at the API boundary. -/

/-- JS `str.split(sep)` for a single-character separator. -/
def splitOnChar (sep : Char) : List Char → List (List Char)
  | [] => [[]]
  | c :: rest =>
    match splitOnChar sep rest with
    | [] => if c = sep then [[], []] else [[c]]
    | g :: gs => if c = sep then [] :: g :: gs else (c :: g) :: gs

/-- JS `str.trim()` (over the ASCII whitespace that occurs here). -/
def trimChars (cs : List Char) : List Char :=
  ((cs.dropWhile jsWhitespace).reverse.dropWhile jsWhitespace).reverse

/-- JS `haystack.includes(needle)`. -/
def containsSub (needle : List Char) : List Char → Bool
  | [] => needle.isPrefixOf []
  | c :: rest => needle.isPrefixOf (c :: rest) || containsSub needle rest

/-- The `Operator` union type. -/
inductive Operator
  | eq | neq | gt | gte | lt | lte | inOp | not_in | contains | starts_with
deriving DecidableEq, Repr

/-- Membership test against `VALID_OPERATORS`, returning the parsed
operator (the JS code checks `VALID_OPERATORS.has(op)` and then casts). -/
def operatorOfString (s : String) : Option Operator :=
  if s = "eq" then some .eq
  else if s = "neq" then some .neq
  else if s = "gt" then some .gt
  else if s = "gte" then some .gte
  else if s = "lt" then some .lt
  else if s = "lte" then some .lte
  else if s = "in" then some .inOp
  else if s = "not_in" then some .not_in
  else if s = "contains" then some .contains
  else if s = "starts_with" then some .starts_with
  else none

/-- `ALLOWED_FIELDS`. -/
def ALLOWED_FIELDS : List String :=
  ["status", "createdAt", "documentDate", "businessPartnerName",
   "totalTransactionAmountInMajors", "currency", "documentType"]

/-- A filter value: a scalar string, or a string set for `in`/`not_in`. -/
inductive FilterValue
  | scalar (s : String)
  | several (ss : List String)
deriving DecidableEq, Repr

structure FilterSpec where
  field : String
  operator : Operator
  value : FilterValue
deriving DecidableEq, Repr

inductive Direction
  | asc | desc
deriving DecidableEq, Repr

structure SortSpec where
  field : String
  direction : Direction
deriving DecidableEq, Repr

def createValidationError (message : String) : JsError :=
  ⟨message, some 422⟩

/-- Parse one `field:operator:value` triple (the body of the `.map` inside
`parseFilter`); a thrown `ValidationError` is an `Except.error`. -/
def parseFilterPart (part : String) : Except JsError FilterSpec :=
  let segments := (splitOnChar ':' part.data).map String.mk
  if segments.length < 3 then
    .error (createValidationError ("Invalid filter format: " ++ part))
  else
    let field := segments.headD ""
    let operator := segments.getD 1 ""
    let rawValue := ":".intercalate (segments.drop 2)
    if (ALLOWED_FIELDS.contains field) = false then
      .error (createValidationError ("Invalid filter field: " ++ field))
    else
      match operatorOfString operator with
      | none => .error (createValidationError ("Invalid filter operator: " ++ operator))
      | some op =>
        let value := if op = .inOp ∨ op = .not_in
          then FilterValue.several ((splitOnChar '|' rawValue.data).map String.mk)
          else FilterValue.scalar rawValue
        .ok ⟨field, op, value⟩

/-- JS `Array.prototype.map` with a callback that can throw: the first
throw aborts the whole map. -/
def mapOrFirstError (f : α → Except ε β) : List α → Except ε (List β)
  | [] => .ok []
  | a :: rest =>
    match f a with
    | .error e => .error e
    | .ok b => (mapOrFirstError f rest).map (fun bs => b :: bs)

/-- `parseFilter(filterStr?)`: empty or absent input parses to no specs;
otherwise split on commas, trim each part and parse it. -/
def parseFilter (filterStr : Option String) : Except JsError (List FilterSpec) :=
  match filterStr with
  | none => .ok []
  | some fs =>
    if trimChars fs.data = [] then .ok []
    else mapOrFirstError parseFilterPart
      ((splitOnChar ',' fs.data).map (fun g => String.mk (trimChars g)))

/-- Parse one `field:direction` pair of `parseSort`. -/
def parseSortPart (part : String) : Except JsError SortSpec :=
  let segments := (splitOnChar ':' (trimChars part.data)).map String.mk
  let field := segments.headD ""
  let dir := segments.getD 1 ""
  if (ALLOWED_FIELDS.contains field) = false then
    .error (createValidationError ("Invalid sort field: " ++ field))
  else
    .ok ⟨field, if dir = "desc" then .desc else .asc⟩

/-- `parseSort(sortStr?)`. -/
def parseSort (sortStr : Option String) : Except JsError (List SortSpec) :=
  match sortStr with
  | none => .ok []
  | some ss =>
    if trimChars ss.data = [] then .ok []
    else mapOrFirstError parseSortPart
      ((splitOnChar ',' ss.data).map String.mk)

/-- A JS runtime value as read off a document by `getFieldValue`: the
field values occurring on an `AccountingDocument` are strings, numbers,
the nested `totalTransactionAmount` object, the `lineItems` array — or
`undefined` for a property the document does not have. -/
inductive JsVal
  | undefined
  | vnull
  | vstr (s : String)
  | vnum (n : Int)
  | vmoney (m : Money)
  | varr (items : List LineItem)
deriving DecidableEq, Repr

/-- Decimal rendering of an integer (JS `String(n)` — every number in
this system is an integer). -/
def intDecString (n : Int) : String :=
  if n < 0 then "-" ++ String.mk ((-n).toNat |> decimalBytes |>.map Char.ofNat)
  else String.mk (n.toNat |> decimalBytes |>.map Char.ofNat)

/-- JS `String(value)` for the values above (objects stringify to
`[object Object]`, arrays to their comma-joined elements). -/
def jsToString : JsVal → String
  | .undefined => "undefined"
  | .vnull => "null"
  | .vstr s => s
  | .vnum n => intDecString n
  | .vmoney _ => "[object Object]"
  | .varr items => ",".intercalate (items.map (fun _ => "[object Object]"))

/-- JS `parseFloat(s)` restricted to the integer-valued strings that occur
in this system: leading whitespace, optional sign, longest digit run. -/
def parseFloatI (s : String) : Option Int := parseIntDec s.data

/-- JS `Number(s)` restricted to integer-valued strings: empty or
whitespace-only coerces to 0, otherwise the whole trimmed string must be
a signed digit run. -/
def jsNumber (s : String) : Option Int :=
  let t := trimChars s.data
  if t = [] then some 0
  else
    match t with
    | '-' :: rest =>
      if rest ≠ [] ∧ rest.all (fun c => (digitVal c).isSome) then
        some (-(rest.foldl (fun a c => a * 10 + ((c.toNat : Int) - 48)) 0))
      else none
    | _ =>
      if t.all (fun c => (digitVal c).isSome) then
        some (t.foldl (fun a c => a * 10 + ((c.toNat : Int) - 48)) 0)
      else none

/-- JS `Number(filterValue)` where the filter value may be an array (an
array coerces through its comma-joined string form). -/
def jsNumberOfFilterValue : FilterValue → Option Int
  | .scalar s => jsNumber s
  | .several ss => jsNumber (",".intercalate ss)

/-- JS `String(filterValue)`. -/
def filterValueString : FilterValue → String
  | .scalar s => s
  | .several ss => ",".intercalate ss

def lowerChars (s : String) : List Char := s.data.map Char.toLower

/-- `matchesFilter(value, spec)`: a `null`/`undefined` field value matches
only `neq`/`not_in`; otherwise compare the stringified (or numeric) value
per operator.  Numeric operators yield false when either side is NaN. -/
def matchesFilter (value : JsVal) (spec : FilterSpec) : Bool :=
  match value with
  | .vnull | .undefined => spec.operator = .neq || spec.operator = .not_in
  | _ =>
    let strValue := jsToString value
    let numValue : Option Int :=
      match value with
      | .vnum n => some n
      | _ => parseFloatI strValue
    match spec.operator with
    | .eq =>
      match spec.value with
      | .scalar fv => strValue = fv
      | .several _ => false
    | .neq =>
      match spec.value with
      | .scalar fv => strValue ≠ fv
      | .several _ => true
    | .gt =>
      match numValue, jsNumberOfFilterValue spec.value with
      | some n, some m => n > m
      | _, _ => false
    | .gte =>
      match numValue, jsNumberOfFilterValue spec.value with
      | some n, some m => n ≥ m
      | _, _ => false
    | .lt =>
      match numValue, jsNumberOfFilterValue spec.value with
      | some n, some m => n < m
      | _, _ => false
    | .lte =>
      match numValue, jsNumberOfFilterValue spec.value with
      | some n, some m => n ≤ m
      | _, _ => false
    | .inOp =>
      match spec.value with
      | .several ss => ss.contains strValue
      | .scalar _ => false
    | .not_in =>
      match spec.value with
      | .several ss => !(ss.contains strValue)
      | .scalar _ => false
    | .contains =>
      containsSub (lowerChars (filterValueString spec.value)) (lowerChars strValue)
    | .starts_with =>
      (lowerChars (filterValueString spec.value)).isPrefixOf (lowerChars strValue)

/-- `AccountingDocument` as listed by the accounting-documents module.
`documentType` and `status` are string unions at runtime (the generator
even injects statuses outside the declared union through an `as any`
cast), so they are modelled as strings. -/
structure AccountingDocument where
  id : String
  documentType : String
  status : String
  documentNumber : String
  documentDate : String
  createdAt : String
  updatedAt : String
  businessPartnerId : String
  businessPartnerName : String
  description : String
  totalTransactionAmount : Money
  lineItems : List LineItem
deriving DecidableEq, Repr

/-- `getFieldValue(doc, field)`: the two computed fields, then dynamic
property access `doc[field]` — a property the interface does not have
reads as `undefined`. -/
def getFieldValue (doc : AccountingDocument) (field : String) : JsVal :=
  if field = "totalTransactionAmountInMajors" then
    .vnum doc.totalTransactionAmount.amountInMajors
  else if field = "currency" then .vstr doc.totalTransactionAmount.currency
  else if field = "id" then .vstr doc.id
  else if field = "documentType" then .vstr doc.documentType
  else if field = "status" then .vstr doc.status
  else if field = "documentNumber" then .vstr doc.documentNumber
  else if field = "documentDate" then .vstr doc.documentDate
  else if field = "createdAt" then .vstr doc.createdAt
  else if field = "updatedAt" then .vstr doc.updatedAt
  else if field = "businessPartnerId" then .vstr doc.businessPartnerId
  else if field = "businessPartnerName" then .vstr doc.businessPartnerName
  else if field = "description" then .vstr doc.description
  else if field = "totalTransactionAmount" then .vmoney doc.totalTransactionAmount
  else if field = "lineItems" then .varr doc.lineItems
  else .undefined

/-- `applyFilters(items, specs)`: a document passes when every spec
matches its extracted field value. -/
def applyFilters (items : List AccountingDocument) (specs : List FilterSpec) :
    List AccountingDocument :=
  if specs = [] then items
  else items.filter (fun item =>
    specs.all (fun spec => matchesFilter (getFieldValue item spec.field) spec))

/-- The string form a sort key compares through
(`String(value ?? '')` — null/undefined coalesce to the empty string). -/
def sortKeyString (v : JsVal) : String :=
  match v with
  | .undefined | .vnull => ""
  | _ => jsToString v

/-- One comparator step of `applySort`: numbers compare numerically,
anything else through string comparison. -/
def compareVals (a b : JsVal) : Int :=
  match a, b with
  | .vnum x, .vnum y => x - y
  | _, _ =>
    match compare (sortKeyString a) (sortKeyString b) with
    | .lt => -1
    | .eq => 0
    | .gt => 1

/-- The full multi-key comparator of `applySort`: first non-zero wins. -/
def compareDocs (specs : List SortSpec) (a b : AccountingDocument) : Int :=
  match specs with
  | [] => 0
  | spec :: rest =>
    let comparison := compareVals (getFieldValue a spec.field) (getFieldValue b spec.field)
    if comparison ≠ 0 then
      (match spec.direction with | .desc => -comparison | .asc => comparison)
    else compareDocs rest a b

/-- `applySort(items, specs)`: a stable sort by the multi-key comparator
(`[...items].sort(..)` — modern `Array.prototype.sort` is stable). -/
def applySort (items : List AccountingDocument) (specs : List SortSpec) :
    List AccountingDocument :=
  if specs = [] then items
  else items.mergeSort (fun a b => compareDocs specs a b ≤ 0)

/-- The `ListParams` accepted by `list` (limit defaults to 25 at the
destructuring site). -/
structure ListParams where
  filter : Option String
  sort : Option String
  limit : Option Nat
  cursor : Option String
deriving Repr

/-- `list(params)` of the accounting-documents module, parameterised by
the module's generated document collection: parse and validate the filter,
then the sort, apply them, clamp the limit to [1, 100] and paginate. -/
def listDocs (documents : List AccountingDocument) (params : ListParams) :
    Except JsError (PageResp AccountingDocument) := do
  let filterSpecs ← parseFilter params.filter
  let sortSpecs ← parseSort params.sort
  let result := applyFilters documents filterSpecs
  let result2 := applySort result sortSpecs
  let clampedLimit := min (max 1 (params.limit.getD 25)) 100
  cursorPaginate result2 clampedLimit params.cursor

/-! ### Claim theorems for filtering -/

/-- A malformed filter triple: wrong segment count (fewer than three
colon-separated segments), a field outside the allow-list, or an
unsupported operator. -/
def filterPartDefect (p : String) : Prop :=
  ((splitOnChar ':' p.data).map String.mk).length < 3
  ∨ (ALLOWED_FIELDS.contains
      (((splitOnChar ':' p.data).map String.mk).headD "")) = false
  ∨ operatorOfString (((splitOnChar ':' p.data).map String.mk).getD 1 "") = none

instance (p : String) : Decidable (filterPartDefect p) := by
  unfold filterPartDefect
  infer_instance

theorem filterPartDefect_error (p : String) (hd : filterPartDefect p) :
    ∃ e, parseFilterPart p = .error e := by
  unfold parseFilterPart
  dsimp only
  by_cases h1 : ((splitOnChar ':' p.data).map String.mk).length < 3
  · rw [if_pos h1]
    exact ⟨_, rfl⟩
  · rw [if_neg h1]
    by_cases h2 : (ALLOWED_FIELDS.contains
        (((splitOnChar ':' p.data).map String.mk).headD "")) = false
    · rw [if_pos h2]
      exact ⟨_, rfl⟩
    · rw [if_neg h2]
      have h3 : operatorOfString
          (((splitOnChar ':' p.data).map String.mk).getD 1 "") = none := by
        rcases hd with h | h | h
        · exact absurd h h1
        · exact absurd h h2
        · exact h
      rw [h3]
      exact ⟨_, rfl⟩

theorem parseFilterPart_error_status (p : String) (e : JsError)
    (h : parseFilterPart p = .error e) : e.status = some 422 := by
  unfold parseFilterPart at h
  dsimp only at h
  split at h
  · rw [← Except.error.inj h]
    rfl
  · split at h
    · rw [← Except.error.inj h]
      rfl
    · split at h
      · rw [← Except.error.inj h]
        rfl
      · exact absurd h (by simp)

theorem mapOrFirstError_first {α β ε : Type} (f : α → Except ε β) :
    ∀ (l : List α), (∃ a ∈ l, ∃ e, f a = .error e) →
    ∃ a ∈ l, ∃ e, f a = .error e ∧ mapOrFirstError f l = .error e := by
  intro l
  induction l with
  | nil =>
    rintro ⟨a, ha, _⟩
    simp at ha
  | cons x rest ih =>
    rintro ⟨a, ha, e, he⟩
    cases hfx : f x with
    | error ex =>
      exact ⟨x, by simp, ex, hfx, by simp [mapOrFirstError, hfx]⟩
    | ok b =>
      have hrest : ∃ a ∈ rest, ∃ e, f a = .error e := by
        rcases List.mem_cons.mp ha with h | h
        · subst h
          rw [hfx] at he
          exact absurd he (by simp)
        · exact ⟨a, h, e, he⟩
      obtain ⟨a2, ha2, e2, he2, hmap⟩ := ih hrest
      refine ⟨a2, by simp [ha2], e2, he2, ?_⟩
      simp [mapOrFirstError, hfx, hmap, Except.map]

/-- Claim C7: for every filter string containing a malformed triple
(wrong segment count, disallowed field, or unsupported operator), parsing
raises a ValidationError (status 422) built from the offending part, the
whole `list` call returns that error with no partial result, and the
document collection is unread: the outcome is identical for every
document collection. -/
theorem c7_filter_validation (fs : String) (so : Option String)
    (lim : Option Nat) (cur : Option String)
    (hne : ¬ trimChars fs.data = [])
    (hdef : ∃ p ∈ (splitOnChar ',' fs.data).map (fun g => String.mk (trimChars g)),
      filterPartDefect p) :
    ∃ p ∈ (splitOnChar ',' fs.data).map (fun g => String.mk (trimChars g)),
      ∃ e, parseFilterPart p = .error e ∧ e.status = some 422
        ∧ parseFilter (some fs) = .error e
        ∧ ∀ docs : List AccountingDocument,
            listDocs docs ⟨some fs, so, lim, cur⟩ = .error e := by
  have hex : ∃ p ∈ (splitOnChar ',' fs.data).map (fun g => String.mk (trimChars g)),
      ∃ e, parseFilterPart p = .error e := by
    obtain ⟨p, hp, hd⟩ := hdef
    exact ⟨p, hp, filterPartDefect_error p hd⟩
  obtain ⟨p, hp, e, hpe, hmap⟩ := mapOrFirstError_first parseFilterPart _ hex
  have hpf : parseFilter (some fs) = .error e := by
    unfold parseFilter
    dsimp only
    rw [if_neg hne]
    exact hmap
  refine ⟨p, hp, e, hpe, parseFilterPart_error_status p e hpe, hpf, ?_⟩
  intro docs
  unfold listDocs
  rw [hpf]
  rfl

/-- Claim C7 witness: the filter string `foo:eq:1` has a field outside the
allow-list. -/
theorem c7_filter_validation_witness :
    (¬ trimChars ("foo:eq:1" : String).data = []
      ∧ ∃ p ∈ (splitOnChar ',' ("foo:eq:1" : String).data).map
          (fun g => String.mk (trimChars g)), filterPartDefect p)
    ∧ ∃ p ∈ (splitOnChar ',' ("foo:eq:1" : String).data).map
        (fun g => String.mk (trimChars g)),
      ∃ e, parseFilterPart p = .error e ∧ e.status = some 422
        ∧ parseFilter (some "foo:eq:1") = .error e
        ∧ ∀ docs : List AccountingDocument,
            listDocs docs ⟨some "foo:eq:1", none, none, none⟩ = .error e :=
  ⟨⟨by decide, by decide⟩,
    c7_filter_validation "foo:eq:1" none none none (by decide) (by decide)⟩

/-- Claim C8: when the extracted field value of a document is null or
absent (`undefined`), a filter spec matches exactly when its operator is
`neq` or `not_in`; under every other supported operator the document does
not match.  `matchesFilter` is total — no error is raised. -/
theorem c8_null_handling (doc : AccountingDocument) (spec : FilterSpec)
    (h : getFieldValue doc spec.field = .undefined
      ∨ getFieldValue doc spec.field = .vnull) :
    (matchesFilter (getFieldValue doc spec.field) spec = true ↔
      (spec.operator = .neq ∨ spec.operator = .not_in)) := by
  rcases h with h | h <;> rw [h] <;>
    simp [matchesFilter, Bool.or_eq_true, decide_eq_true_eq]

/-- A sample document for the filter-evaluation witnesses. -/
def sampleFilterDoc : AccountingDocument where
  id := "doc-000001"
  documentType := "AP"
  status := "INIT"
  documentNumber := "AP-12345"
  documentDate := "2024-03-01"
  createdAt := "2024-01-01T00:00:00.000Z"
  updatedAt := "2024-06-01T00:00:00.000Z"
  businessPartnerId := "bp-1234"
  businessPartnerName := "Acme Software Solutions"
  description := "Bulk order of squeaky toys"
  totalTransactionAmount := ⟨500, "USD"⟩
  lineItems := []

/-- Claim C8 witness: the property `amount` does not exist on a document
(the computed field is `totalTransactionAmountInMajors`), so
`amount:gt:0` reads `undefined` and silently excludes the document. -/
theorem c8_null_handling_witness :
    (getFieldValue sampleFilterDoc "amount" = .undefined
      ∨ getFieldValue sampleFilterDoc "amount" = .vnull)
    ∧ (matchesFilter (getFieldValue sampleFilterDoc "amount")
        ⟨"amount", Operator.gt, .scalar "0"⟩ = true ↔
      (Operator.gt = Operator.neq ∨ Operator.gt = Operator.not_in)) :=
  ⟨Or.inl (by decide),
    c8_null_handling sampleFilterDoc ⟨"amount", Operator.gt, .scalar "0"⟩
      (Or.inl (by decide))⟩

end LightSDK
